import Mathlib

/-!
Shallow embedding of the nested-comment persistence engine of ElastiQuill
(backend/src/services/comments.js) together with the parts of its environment
that the service observes: the Elasticsearch client calls are modelled as pure
operations on an explicit store state, the uid() token and the creation
timestamp are passed as explicit arguments, and JavaScript runtime failures
(thrown Joi validation errors, 404s from esClient.get, TypeErrors from
dereferencing undefined) are modelled with an Except monad.
-/

namespace Comments

/-- Errors a call of the service can throw.  validationError carries the field
paths reported by Joi (with the default abortEarly behaviour this is the first
failing field only); notFoundError is the 404 thrown by esClient.get for a
missing document id; typeError is the JavaScript TypeError raised when the code
dereferences undefined (out-of-range reply index, lodash find miss). -/
inductive JsError where
  | validationError (fields : List String)
  | notFoundError
  | typeError
deriving DecidableEq, Repr

/-- Scalar fields of one comment node, as synthesized by createComment:
the caller-supplied attributes plus comment_id (uid(12)), approved
(JavaScript negation of spam), spam as supplied (boolean or null) and the
server timestamp published_at.  website may be absent. -/
structure CommentFields where
  comment_id : String
  post_id : String
  author_name : String
  author_email : String
  author_website : Option String
  content : String
  user_host_address : String
  user_agent : String
  spam : Option Bool
  approved : Bool
  published_at : String
deriving DecidableEq, Repr

/-- A comment tree node: scalar fields plus an optional replies array.
replies is Option (List Comment) because the JavaScript objects distinguish an
absent replies field (a freshly created node has none) from a present empty
array; the code guards reads with (replies or-else []). -/
inductive Comment where
  | node (fields : CommentFields) (replies : Option (List Comment)) : Comment

/-- Scalar fields of a node. -/
def Comment.fields : Comment → CommentFields
  | .node f _ => f

/-- Replies array of a node (none when the field is absent). -/
def Comment.replies : Comment → Option (List Comment)
  | .node _ r => r

mutual

/-- Embedding of filterNotApproved (comments.js lines 129-134):
comments.filter(c approved).map over with replies replaced recursively.
The filter-then-map of the source is fused into one structural recursion. -/
def filterNotApproved : List Comment → List Comment
  | [] => []
  | c :: cs =>
    if c.fields.approved then filterNotApprovedNode c :: filterNotApproved cs
    else filterNotApproved cs

/-- Rebuilds one surviving node: spread of the node with replies replaced by
filterNotApproved (c.replies or-else []). -/
def filterNotApprovedNode : Comment → Comment
  | .node f none => .node f (some [])
  | .node f (some rs) => .node f (some (filterNotApproved rs))

end

/-- Parsed form of the recipient_path JSON string holding the root document id
followed by zero-based reply indices.  The JSON serialization itself
(JSON.parse at line 41) is abstracted: the path value is modelled already
split into the root id and the index sequence. -/
structure RecipientPath where
  rootId : String
  indices : List Nat
deriving DecidableEq, Repr

/-- Raw author object of the request, before validation: every key may be
absent. -/
structure RawAuthor where
  name : Option String
  email : Option String
  website : Option String
deriving Repr

/-- Raw createComment argument, before validation: the outer Option is
presence of the key; for recipient_path and spam, whose schemas carry
allow(null), the inner Option distinguishes null from a proper value. -/
structure RawComment where
  recipient_path : Option (Option RecipientPath)
  post_id : Option String
  author : Option RawAuthor
  content : Option String
  user_host_address : Option String
  user_agent : Option String
  spam : Option (Option Bool)
deriving Repr

/-- Validated author. -/
structure Author where
  name : String
  email : String
  website : Option String
deriving DecidableEq, Repr

/-- Well-typed createComment argument, as extracted by a successful
validation. -/
structure CheckedComment where
  recipient_path : Option RecipientPath
  post_id : String
  author : Author
  content : String
  user_host_address : String
  user_agent : String
  spam : Option Bool
deriving Repr

/-- Joi string().email() check.  The exact email grammar lives inside the Joi
library; it is abstracted to the presence of an at sign, which agrees with Joi
on every address appearing in this development. -/
def isEmailString (s : String) : Bool := s.data.contains '@'

/-- Embedding of Joi.validate comment CreateCommentArgSchema (lines 9-27).
Joi with default options stops at the first failing key (abortEarly defaults
to true) and keys are checked in schema declaration order; a Joi string()
rejects the empty string unless the schema carries allow of the empty string,
hence website alone admits it.  On success the extracted well-typed fields are
returned. -/
def validateComment (c : RawComment) : Except (List String) CheckedComment :=
  match c.recipient_path with
  | none => .error ["recipient_path"]
  | some rp =>
  match c.post_id with
  | none => .error ["post_id"]
  | some pid =>
  if pid = "" then .error ["post_id"] else
  match c.author with
  | none => .error ["author"]
  | some a =>
  match a.name with
  | none => .error ["author.name"]
  | some nm =>
  if nm = "" then .error ["author.name"] else
  match a.email with
  | none => .error ["author.email"]
  | some em =>
  if em = "" then .error ["author.email"] else
  if ¬ isEmailString em then .error ["author.email"] else
  match c.content with
  | none => .error ["content"]
  | some ct =>
  if ct = "" then .error ["content"] else
  match c.user_host_address with
  | none => .error ["user_host_address"]
  | some uha =>
  if uha = "" then .error ["user_host_address"] else
  match c.user_agent with
  | none => .error ["user_agent"]
  | some ua =>
  if ua = "" then .error ["user_agent"] else
  match c.spam with
  | none => .error ["spam"]
  | some sp =>
  .ok { recipient_path := rp
        post_id := pid
        author := { name := nm, email := em, website := a.website }
        content := ct
        user_host_address := uha
        user_agent := ua
        spam := sp }

/-- Spec-words counterpart of the validation for claim C3: the list of every
violated required-field constraint of the attribute table, in schema order
(validate-all-then-report as the specification describes it).  This definition
follows the specification text, not the source, and is only compared against
validateComment. -/
def specViolatedFields (c : RawComment) : List String :=
  (if c.recipient_path.isNone then ["recipient_path"] else []) ++
  (match c.post_id with
   | none => ["post_id"]
   | some p => if p = "" then ["post_id"] else []) ++
  (match c.author with
   | none => ["author"]
   | some a =>
     (match a.name with
      | none => ["author.name"]
      | some n => if n = "" then ["author.name"] else []) ++
     (match a.email with
      | none => ["author.email"]
      | some e =>
        if e = "" then ["author.email"]
        else if isEmailString e then [] else ["author.email"])) ++
  (match c.content with
   | none => ["content"]
   | some t => if t = "" then ["content"] else []) ++
  (match c.user_host_address with
   | none => ["user_host_address"]
   | some h => if h = "" then ["user_host_address"] else []) ++
  (match c.user_agent with
   | none => ["user_agent"]
   | some u => if u = "" then ["user_agent"] else []) ++
  (if c.spam.isNone then ["spam"] else [])

/-- JavaScript logical negation of a boolean-or-null value (line 35, approved
is not comment.spam): null is falsy, so its negation is true. -/
def jsNot : Option Bool → Bool
  | some b => !b
  | none => true

/-- Fields of the body synthesized at lines 32-38: the validated input spread
together with comment_id (the uid(12) token), approved as the JavaScript
negation of spam, spam as supplied, and published_at (the server timestamp).
The body carries no replies field. -/
def bodyFields (chk : CheckedComment) (uidToken timestamp : String) : CommentFields :=
  { comment_id := uidToken
    post_id := chk.post_id
    author_name := chk.author.name
    author_email := chk.author.email
    author_website := chk.author.website
    content := chk.content
    user_host_address := chk.user_host_address
    user_agent := chk.user_agent
    spam := chk.spam
    approved := jsNot chk.spam
    published_at := timestamp }

/-- Response of the Elasticsearch index API call (document creation): the
response reports metadata such as the assigned id; it does not echo the
document, so its source field — read by the code at line 79 — is absent. -/
structure IndexResp where
  respId : String
  respSource : Option Comment

/-- State of the comments index: documents keyed by store-assigned id, plus a
counter from which fresh ids are minted. -/
structure Store where
  docs : List (String × Comment)
  nextId : Nat

/-- Modelled esClient.get: the source of the document with the given id, none
when the index holds no such document (the client then throws a 404). -/
def Store.getDoc (st : Store) (id : String) : Option Comment :=
  (st.docs.find? (fun p => p.1 = id)).map (fun p => p.2)

/-- Modelled esClient.index: appends a new document under a fresh id.  Per the
Elasticsearch index API the response carries the assigned id and no source. -/
def Store.indexDoc (st : Store) (c : Comment) : Store × IndexResp :=
  ({ docs := st.docs ++ [(toString st.nextId, c)], nextId := st.nextId + 1 },
   { respId := toString st.nextId, respSource := none })

/-- Modelled esClient.update with a whole document body: replaces the document
stored under the id. -/
def Store.updateDoc (st : Store) (id : String) (c : Comment) : Store :=
  { st with docs := st.docs.map (fun p => if p.1 = id then (id, c) else p) }

/-- Walk of the reply-indices loop (lines 49-51): res starts at the fetched
source and each index steps into res.replies.  An absent replies field or an
out-of-range index leaves the value undefined and the following property
access throws a TypeError; the walk surfaces that error. -/
def walkPath : Comment → List Nat → Except JsError Comment
  | c, [] => .ok c
  | c, i :: rest =>
    match c.replies with
    | none => .error .typeError
    | some rs =>
      match rs[i]? with
      | none => .error .typeError
      | some child => walkPath child rest

/-- Effect on the fetched source of the in-place mutation at lines 48-53: the
walk locates the target node, its replies field is initialized to the empty
array when absent, and the body is pushed at its end; since the loop variable
aliases a node inside the fetched source, the root written back contains the
appended node.  Returns the updated root together with the updated target node
(the object the code returns as repliedToComment). -/
def appendAt : Comment → List Nat → Comment → Except JsError (Comment × Comment)
  | .node f r, [], body =>
    let target : Comment := .node f (some ((r.getD []) ++ [body]))
    .ok (target, target)
  | .node f r, i :: rest, body =>
    match r with
    | none => .error .typeError
    | some rs =>
      match rs[i]? with
      | none => .error .typeError
      | some child =>
        match appendAt child rest body with
        | .error e => .error e
        | .ok (child2, target) => .ok (.node f (some (rs.set i child2)), target)

/-- Object returned by createComment.  newComment is an Option because in the
root branch the code returns the absent source field of the index response. -/
structure CreateResult where
  newComment : Option Comment
  repliedToComment : Option Comment

/-- Embedding of createComment (lines 23-83).  uidToken and timestamp stand
for uid(12) and the server clock reading.  A failed validation throws the Joi
error; with a recipient path the root document is fetched (404 when the id is
unknown), the body is appended at the addressed node and the whole mutated
document is written back; without one a fresh document holding just the body
is indexed.  The result pairs the updated store with the returned object. -/
def createComment (st : Store) (input : RawComment) (uidToken timestamp : String) :
    Except JsError (Store × CreateResult) :=
  match validateComment input with
  | .error fields => .error (.validationError fields)
  | .ok chk =>
    let body : Comment := .node (bodyFields chk uidToken timestamp) none
    match chk.recipient_path with
    | some p =>
      match st.getDoc p.rootId with
      | none => .error .notFoundError
      | some src =>
        match appendAt src p.indices body with
        | .error e => .error e
        | .ok (root2, target) =>
          .ok (st.updateDoc p.rootId root2,
               { newComment := some body, repliedToComment := some target })
    | none =>
      let (st2, resp) := st.indexDoc body
      .ok (st2, { newComment := resp.respSource, repliedToComment := none })

/-- One search hit: the store-assigned id of a root document together with its
source. -/
structure Hit where
  hitId : String
  hitSource : Comment

/-- Spread of a hit into the returned object (lines 124-127 and 273-276): the
source fields plus an id key holding the hit id. -/
structure HitComment where
  id : String
  source : Comment

/-- Builds the spread object of one hit. -/
def hitToComment (h : Hit) : HitComment :=
  { id := h.hitId, source := h.hitSource }

/-- Embedding of the scroll loop shared by getComments and getAllComments
(lines 114-122 and 264-271): the page stream delivered by the initial search
followed by successive scroll calls is modelled as a list of pages, a position
past its end standing for the empty response an exhausted scroll keeps
returning.  The loop accumulates pages in order and stops at the first page
with zero hits. -/
def scanLoop : List (List Hit) → List Hit
  | [] => []
  | p :: ps => if p.isEmpty then [] else p ++ scanLoop ps

/-- Embedding of getAllComments (lines 252-277): every page of the match_all
scroll is accumulated and each hit is spread with its id; no visibility
filtering happens on this administrative path. -/
def getAllComments (pages : List (List Hit)) : List HitComment :=
  (scanLoop pages).map hitToComment

/-- Embedding of getComments (lines 85-135) once the store has answered the
scroll with the given pages (the query-side filtering on post_id, approved and
spam happens inside the store): the accumulated hits are passed through
filterNotApproved.  The extra root-level id key added by the spread is not
recorded by the comment type. -/
def getComments (pages : List (List Hit)) : List Comment :=
  filterNotApproved ((scanLoop pages).map (fun h => h.hitSource))

/-- Post id stored at the root of a document. -/
def Comment.postId (c : Comment) : String := c.fields.post_id

/-- Embedding of deletePostComments (lines 137-152): a delete-by-query with a
term filter on post_id removes every document whose root post_id equals the
given id; the store reports the number of deleted documents and raises no
error when nothing matches. -/
def deletePostComments (st : Store) (id : String) : Store × Nat :=
  ({ st with docs := st.docs.filter (fun p => p.2.postId ≠ id) },
   (st.docs.filter (fun p => p.2.postId = id)).length)

/-- Post entity of the external blog-post store. -/
structure Post where
  id : String
  title : String
deriving DecidableEq, Repr

/-- Modelled from the spec: getItemsByIds(ids) of the external post store
collaborator (the blogPosts module is outside the analysed sources; section 6
of the specification gives its signature as ids to sequence of Post) returns
the posts matching the given ids, used to enrich the top-commented
aggregation. -/
def getItemsByIds (posts : List Post) (ids : List String) : List Post :=
  ids.filterMap (fun i => posts.find? (fun p => p.id = i))

/-- One aggregation bucket: a key with its document count. -/
structure Bucket where
  key : String
  doc_count : Nat
deriving DecidableEq, Repr

/-- Aggregations of the stats search response: the post_ids term aggregation
(requested with size 5) and the published_at date histogram. -/
structure StatsAggs where
  post_ids_buckets : List Bucket
  histogram_buckets : List Bucket

/-- Stats search response: the most recent hits (the request asks for 10) and,
when the index reports them, the aggregations. -/
structure StatsResp where
  hits : List Hit
  aggregations : Option StatsAggs

/-- Object returned by getStats. -/
structure StatsResult where
  commentsByDate : List Bucket
  mostCommentedPosts : List (Post × Nat)
  recentComments : List HitComment
  commentsCount : Nat

/-- Enrichment loop of getStats (lines 236-239): each post returned by the
external store is spread with a comments_count read from the bucket the lodash
find locates by the post id; when the find misses, the code dereferences
undefined and throws a TypeError. -/
def joinCounts (buckets : List Bucket) : List Post → Except JsError (List (Post × Nat))
  | [] => .ok []
  | p :: ps =>
    match buckets.find? (fun b => b.key = p.id) with
    | none => .error .typeError
    | some b =>
      match joinCounts buckets ps with
      | .error e => .error e
      | .ok rest => .ok ((p, b.doc_count) :: rest)

/-- Embedding of getStats (lines 163-250) once the store has answered the
count and search requests (the query construction from startDate and postId
happens store-side).  When the response carries aggregations, the bucket keys
are joined against the external post store and each returned post is spread
with its bucket count; without aggregations both aggregation-derived fields
stay empty arrays. -/
def getStats (countResp : Nat) (resp : StatsResp) (posts : List Post) :
    Except JsError StatsResult :=
  match resp.aggregations with
  | none =>
    .ok { commentsByDate := []
          mostCommentedPosts := []
          recentComments := resp.hits.map hitToComment
          commentsCount := countResp }
  | some aggs =>
    let found := getItemsByIds posts (aggs.post_ids_buckets.map (fun b => b.key))
    match joinCounts aggs.post_ids_buckets found with
    | .error e => .error e
    | .ok mcp =>
      .ok { commentsByDate := aggs.histogram_buckets
            mostCommentedPosts := mcp
            recentComments := resp.hits.map hitToComment
            commentsCount := countResp }

/-- Sample field record with a given comment id, post id and approved flag
(spam stored as its negation), used by the concrete witnesses. -/
def exFields (cid pid : String) (ap : Bool) : CommentFields :=
  { comment_id := cid
    post_id := pid
    author_name := "Ann"
    author_email := "ann@example.com"
    author_website := none
    content := "hi"
    user_host_address := "127.0.0.1"
    user_agent := "UA"
    spam := some (!ap)
    approved := ap
    published_at := "2020-01-01T00:00:00Z" }

/-- Empty comments index whose next minted id is 1. -/
def emptyStore : Store := { docs := [], nextId := 1 }

/-- Valid createComment argument with a null recipient_path. -/
def rootInput : RawComment :=
  { recipient_path := some none
    post_id := some "p1"
    author := some { name := some "Ann", email := some "ann@example.com", website := none }
    content := some "hello"
    user_host_address := some "127.0.0.1"
    user_agent := some "UA"
    spam := some (some false) }

/-- Checked form of rootInput. -/
def rootChecked : CheckedComment :=
  { recipient_path := none
    post_id := "p1"
    author := { name := "Ann", email := "ann@example.com", website := none }
    content := "hello"
    user_host_address := "127.0.0.1"
    user_agent := "UA"
    spam := some false }

/-- Input missing both post_id and content: two violated required-field
constraints. -/
def doubleBadInput : RawComment :=
  { recipient_path := some none
    post_id := none
    author := some { name := some "Ann", email := some "ann@example.com", website := none }
    content := none
    user_host_address := some "127.0.0.1"
    user_agent := some "UA"
    spam := some (some false) }

/-- Pre-existing reply of the sample thread. -/
def exReply : Comment := Comment.node (exFields "r0" "p1" true) none

/-- Root document with one pre-existing reply. -/
def exRoot : Comment := Comment.node (exFields "c0" "p1" true) (some [exReply])

/-- Store holding the sample thread under id 1. -/
def storeOneReply : Store := { docs := [("1", exRoot)], nextId := 2 }

/-- Reply input addressing the root node of document 1. -/
def replyRootInput : RawComment :=
  { rootInput with recipient_path := some (some { rootId := "1", indices := [] }) }

/-- Checked form of replyRootInput. -/
def replyRootChecked : CheckedComment :=
  { rootChecked with recipient_path := some { rootId := "1", indices := [] } }

/-- Body node synthesized for replyRootInput with token u0001 at time t1. -/
def replyRootBody : Comment := Comment.node (bodyFields replyRootChecked "u0001" "t1") none

/-- Reply input addressing the first reply of document 1. -/
def replyIdx0Input : RawComment :=
  { rootInput with recipient_path := some (some { rootId := "1", indices := [0] }) }

/-- Checked form of replyIdx0Input. -/
def replyIdx0Checked : CheckedComment :=
  { rootChecked with recipient_path := some { rootId := "1", indices := [0] } }

/-- Reply input addressing the out-of-range index 1 of document 1, whose root
has exactly one reply. -/
def replyIdx1Input : RawComment :=
  { rootInput with recipient_path := some (some { rootId := "1", indices := [1] }) }

/-- Checked form of replyIdx1Input. -/
def replyIdx1Checked : CheckedComment :=
  { rootChecked with recipient_path := some { rootId := "1", indices := [1] } }

/-- Valid input carrying spam true. -/
def spamTrueInput : RawComment := { rootInput with spam := some (some true) }

/-- Checked form of spamTrueInput. -/
def spamTrueChecked : CheckedComment := { rootChecked with spam := some true }

/-- Valid input carrying a null spam flag. -/
def spamNullInput : RawComment := { rootInput with spam := some none }

/-- Checked form of spamNullInput. -/
def spamNullChecked : CheckedComment := { rootChecked with spam := none }

/-- Sample store with one matching and one non-matching document, used by the
deletion witness. -/
def exDeleteStore : Store :=
  { docs := [("1", Comment.node (exFields "c1" "p1" true) none),
             ("2", Comment.node (exFields "c2" "q1" true) none)]
    nextId := 3 }

/-- Sample hit used by the scan witness. -/
def exHit (n : String) : Hit :=
  { hitId := n, hitSource := Comment.node (exFields n "p1" true) none }

/-- Sample aggregations with two term buckets. -/
def exAggs : StatsAggs :=
  { post_ids_buckets := [{ key := "p1", doc_count := 3 },
                         { key := "p2", doc_count := 1 }]
    histogram_buckets := [{ key := "2020-01-01", doc_count := 4 }] }

/-- Sample stats response with two term-aggregation buckets. -/
def exStatsResp : StatsResp :=
  { hits := [exHit "1"], aggregations := some exAggs }

/-- Sample stats response without aggregations. -/
def exStatsRespEmpty : StatsResp := { hits := [], aggregations := none }

/-- Sample external post store. -/
def exPosts : List Post :=
  [{ id := "p1", title := "One" }, { id := "p2", title := "Two" },
   { id := "p3", title := "Three" }]

/-- Surviving nodes are rebuilt with their replies filtered recursively, an
absent replies field counting as empty. -/
theorem filterNotApprovedNode_eq (c : Comment) :
    filterNotApprovedNode c =
      Comment.node c.fields (some (filterNotApproved (c.replies.getD []))) := by
  cases c with
  | node f r =>
    cases r with
    | none => simp [filterNotApprovedNode, Comment.fields, Comment.replies,
        filterNotApproved]
    | some rs => simp [filterNotApprovedNode, Comment.fields, Comment.replies]

/-- Filtering distributes over list concatenation. -/
theorem filterNotApproved_append (xs ys : List Comment) :
    filterNotApproved (xs ++ ys) = filterNotApproved xs ++ filterNotApproved ys := by
  induction xs with
  | nil => simp [filterNotApproved]
  | cons c cs ih =>
    simp only [List.cons_append, filterNotApproved]
    by_cases h : c.fields.approved <;> simp [h, ih]

/-- C1: the visibility filter, applied to any sequence of comment trees, drops
every node whose approved field is false together with its entire subtree
regardless of the approval state of its descendants, keeps every node whose
approved field is true with its replies replaced by the recursive filtering of
its own replies (an absent replies field counting as empty), and preserves the
relative order of the surviving siblings. -/
theorem filterNotApproved_correct (xs : List Comment) (c : Comment) (ys : List Comment) :
    (c.fields.approved = false →
      filterNotApproved (xs ++ c :: ys) =
        filterNotApproved xs ++ filterNotApproved ys) ∧
    (c.fields.approved = true →
      filterNotApproved (xs ++ c :: ys) =
        filterNotApproved xs ++
          Comment.node c.fields (some (filterNotApproved (c.replies.getD []))) ::
            filterNotApproved ys) := by
  constructor
  · intro h
    rw [filterNotApproved_append]
    simp [filterNotApproved, h]
  · intro h
    rw [filterNotApproved_append]
    simp [filterNotApproved, h, filterNotApprovedNode_eq]

/-- Concrete check of C1: an unapproved node hides its approved reply while
its approved siblings survive in order. -/
theorem filterNotApproved_correct_witness :
    (Comment.node (exFields "c2" "p1" false) (some [Comment.node (exFields "c3" "p1" true) none])).fields.approved = false ∧
    filterNotApproved ([Comment.node (exFields "c1" "p1" true) none] ++
        Comment.node (exFields "c2" "p1" false) (some [Comment.node (exFields "c3" "p1" true) none]) ::
        [Comment.node (exFields "c4" "p1" true) none]) =
      filterNotApproved [Comment.node (exFields "c1" "p1" true) none] ++
        filterNotApproved [Comment.node (exFields "c4" "p1" true) none] :=
  ⟨rfl, (filterNotApproved_correct _ _ _).1 rfl⟩

/-- C9: deletePostComments removes every root document whose post_id matches
the given id, keeps every document whose post_id differs, and is idempotent: a
second run returns the unchanged store and reports zero additional deletions
without error. -/
theorem deletePostComments_correct (st : Store) (id : String) :
    (∀ p ∈ (deletePostComments st id).1.docs, p.2.postId ≠ id) ∧
    (∀ p ∈ st.docs, p.2.postId ≠ id → p ∈ (deletePostComments st id).1.docs) ∧
    deletePostComments (deletePostComments st id).1 id =
      ((deletePostComments st id).1, 0) := by
  refine ⟨?_, ?_, ?_⟩
  · intro p hp
    simp only [deletePostComments, List.mem_filter] at hp
    simpa using hp.2
  · intro p hp h
    simp only [deletePostComments, List.mem_filter]
    exact ⟨hp, by simpa using h⟩
  · simp only [deletePostComments, List.filter_filter, Prod.mk.injEq]
    constructor
    · congr 1
      apply List.filter_congr
      intro p _
      simp
    · rw [List.length_eq_zero, List.filter_eq_nil_iff]
      intro p _
      simp

/-- Concrete check of C9: the non-matching document survives the deletion and
the repeated deletion is a no-op reporting zero deletions. -/
theorem deletePostComments_correct_witness :
    ("2", Comment.node (exFields "c2" "q1" true) none) ∈
        (deletePostComments exDeleteStore "p1").1.docs ∧
    deletePostComments (deletePostComments exDeleteStore "p1").1 "p1" =
      ((deletePostComments exDeleteStore "p1").1, 0) :=
  ⟨(deletePostComments_correct exDeleteStore "p1").2.1 _
      (List.Mem.tail _ (List.Mem.head _)) (by decide),
    (deletePostComments_correct exDeleteStore "p1").2.2⟩

/-- Scan loop over nonempty pages followed by an empty page: every page before
the empty one is accumulated in order and everything after it is ignored. -/
theorem scanLoop_flatten (junk : List (List Hit)) :
    ∀ pages : List (List Hit), (∀ p ∈ pages, p ≠ []) →
      scanLoop (pages ++ [] :: junk) = pages.flatten
  | [], _ => by simp [scanLoop]
  | p :: ps, hne => by
    have hp : p.isEmpty = false := by
      cases p with
      | nil => exact absurd rfl (hne [] (List.mem_cons_self _ _))
      | cons a as => rfl
    simp [scanLoop, hp,
      scanLoop_flatten junk ps (fun q hq => hne q (List.mem_cons_of_mem _ hq))]

/-- C7: when the store delivers the matching documents partitioned into
nonempty pages followed by a page with zero hits (after which arbitrary
further pages may sit, standing for whatever an exhausted scroll would keep
answering), getAllComments stops exactly at the empty page and returns exactly
those documents spread with their ids, in page order, with no duplicates and
no omissions. -/
theorem getAllComments_exhaustive (docs : List Hit) (pages junk : List (List Hit))
    (hjoin : pages.flatten = docs) (hne : ∀ p ∈ pages, p ≠ []) :
    getAllComments (pages ++ [] :: junk) = docs.map hitToComment := by
  subst hjoin
  unfold getAllComments
  rw [scanLoop_flatten junk pages hne]

/-- Concrete check of C7: three documents split into two nonempty pages are
returned exactly once each, and a page sitting after the empty page is never
reached. -/
theorem getAllComments_exhaustive_witness :
    ([[exHit "1", exHit "2"], [exHit "3"]] : List (List Hit)).flatten =
        [exHit "1", exHit "2", exHit "3"] ∧
    getAllComments ([[exHit "1", exHit "2"], [exHit "3"]] ++ [] :: [[exHit "4"]]) =
      [exHit "1", exHit "2", exHit "3"].map hitToComment :=
  ⟨rfl, getAllComments_exhaustive [exHit "1", exHit "2", exHit "3"]
      [[exHit "1", exHit "2"], [exHit "3"]] [[exHit "4"]] rfl
      (by
        intro p hp
        simp only [List.mem_cons, List.mem_singleton] at hp
        rcases hp with h | h | h
        · subst h; exact List.cons_ne_nil _ _
        · subst h; exact List.cons_ne_nil _ _
        · exact absurd h (by simp))⟩

/-- C4 (behaviour at the failing input): a valid input with a null
recipient_path writes one brand-new document holding exactly the synthesized
node — whose replies field is absent, read as empty — but the returned
newComment is the source field of the index response, which the store does not
populate: the call returns none there, not the created node. -/
theorem createComment_root_newComment_missing :
    createComment emptyStore rootInput "u0001" "2020-01-01T00:00:00Z" =
      .ok ({ docs := [("1", Comment.node
                (bodyFields rootChecked "u0001" "2020-01-01T00:00:00Z") none)],
             nextId := 2 },
           { newComment := none, repliedToComment := none }) := by
  rfl

set_option maxHeartbeats 1000000 in
/-- Validation failure reports exactly the first entry of the spec-level list
of all violated fields: Joi with its default abortEarly stops there. -/
theorem validateComment_error_spec (c : RawComment) (errs : List String)
    (h : validateComment c = .error errs) :
    ∃ f rest, specViolatedFields c = f :: rest ∧ errs = [f] := by
  unfold validateComment at h
  unfold specViolatedFields
  repeat' split at h
  all_goals simp_all
  all_goals subst h
  all_goals exact ⟨_, ⟨_, rfl⟩, rfl⟩

set_option maxHeartbeats 1000000 in
/-- Validation success means the spec-level list of violations is empty. -/
theorem validateComment_ok_spec (c : RawComment) (chk : CheckedComment)
    (h : validateComment c = .ok chk) : specViolatedFields c = [] := by
  unfold validateComment at h
  unfold specViolatedFields
  repeat' split at h
  all_goals simp_all

set_option maxHeartbeats 1000000 in
/-- Validation success extracts the spam flag unchanged. -/
theorem validateComment_ok_spam (c : RawComment) (chk : CheckedComment)
    (h : validateComment c = .ok chk) : c.spam = some chk.spam := by
  unfold validateComment at h
  repeat' split at h
  all_goals simp_all
  all_goals (obtain rfl := h.symm; simp_all)

/-- C3 (counterexample): an input violating two required-field constraints —
post_id and content both missing — is rejected with an error listing only
post_id; the violated field content is absent from the reported list, so the
validation is fail-fast rather than validate-all-then-report. -/
theorem createComment_validation_not_all_listed :
    specViolatedFields doubleBadInput = ["post_id", "content"] ∧
    createComment emptyStore doubleBadInput "u0001" "t0" =
      .error (.validationError ["post_id"]) ∧
    List.contains ["post_id"] "content" = false :=
  ⟨by rfl, by rfl, by rfl⟩

/-- C3 (amended): an input that violates more than one required-field
constraint of the attribute table is rejected with a ValidationError naming
only the first violated field in schema order — not all of them — and no
write is performed: createComment returns the error and produces no updated
store. -/
theorem createComment_validation_failfast (st : Store) (input : RawComment)
    (u t f g : String) (rest : List String)
    (hviol : specViolatedFields input = f :: g :: rest) :
    createComment st input u t = .error (.validationError [f]) := by
  cases hv : validateComment input with
  | ok chk =>
    rw [validateComment_ok_spec input chk hv] at hviol
    exact absurd hviol (by simp)
  | error errs =>
    obtain ⟨f2, rest2, hspec, herrs⟩ := validateComment_error_spec input errs hv
    rw [hviol] at hspec
    have hf : f = f2 := (List.cons.inj hspec).1
    simp only [createComment, hv]
    rw [herrs, hf]

/-- Concrete check of the amended C3: the input missing post_id and content is
rejected naming only post_id. -/
theorem createComment_validation_failfast_witness :
    specViolatedFields doubleBadInput = "post_id" :: "content" :: [] ∧
    createComment emptyStore doubleBadInput "u9" "t9" =
      .error (.validationError ["post_id"]) :=
  ⟨by rfl, createComment_validation_failfast emptyStore doubleBadInput "u9" "t9"
      "post_id" "content" [] (by rfl)⟩

/-- C5: every comment body synthesized by createComment carries approved equal
to the negation of the caller-supplied boolean spam flag, and a body created
with spam true (hence approved false) is dropped by the visibility filter
together with its entire subtree, whatever replies — approved or not — hang
below it. -/
theorem created_approved_negates_spam (input : RawComment) (chk : CheckedComment)
    (u t : String) (b : Bool)
    (_hval : validateComment input = .ok chk)
    (hspam : chk.spam = some b) :
    (bodyFields chk u t).approved = !b ∧
    (b = true → ∀ rs, filterNotApproved [Comment.node (bodyFields chk u t) rs] = []) := by
  constructor
  · simp [bodyFields, hspam, jsNot]
  · intro hb rs
    simp [filterNotApproved, Comment.fields, bodyFields, hspam, jsNot, hb]

/-- Concrete check of C5: a comment created with spam true disappears from the
filtered listing even though its reply has approved true. -/
theorem created_approved_negates_spam_witness :
    validateComment spamTrueInput = .ok spamTrueChecked ∧
    spamTrueChecked.spam = some true ∧
    filterNotApproved [Comment.node (bodyFields spamTrueChecked "u1" "t1")
        (some [Comment.node (exFields "ra" "p1" true) none])] = [] :=
  ⟨by rfl, by rfl,
    (created_approved_negates_spam spamTrueInput spamTrueChecked "u1" "t1" true
        (by rfl) (by rfl)).2 rfl _⟩

/-- C10: a null spam flag passes validation (the schema allows null for the
required boolean field), the synthesized comment stores spam as null with
approved true (the JavaScript negation of null), and such a node survives the
visibility filter, its replies filtered recursively. -/
theorem created_null_spam_approved (input : RawComment) (chk : CheckedComment)
    (u t : String) (rs : Option (List Comment))
    (hval : validateComment input = .ok chk)
    (hnull : input.spam = some none) :
    chk.spam = none ∧
    (bodyFields chk u t).approved = true ∧
    (bodyFields chk u t).spam = none ∧
    filterNotApproved [Comment.node (bodyFields chk u t) rs] =
      [Comment.node (bodyFields chk u t) (some (filterNotApproved (rs.getD [])))] := by
  have hs : chk.spam = none := by
    have hsp := validateComment_ok_spam input chk hval
    rw [hnull] at hsp
    exact (Option.some.inj hsp).symm
  refine ⟨hs, by simp [bodyFields, hs, jsNot], by simp [bodyFields, hs], ?_⟩
  have happ : (Comment.node (bodyFields chk u t) rs).fields.approved = true := by
    simp [Comment.fields, bodyFields, hs, jsNot]
  simp [filterNotApproved, Comment.fields, bodyFields, hs, jsNot,
    filterNotApprovedNode_eq, Comment.replies]

/-- Concrete check of C10: a spam-null input validates and yields a visible
comment with approved true and spam stored as null. -/
theorem created_null_spam_approved_witness :
    validateComment spamNullInput = .ok spamNullChecked ∧
    spamNullInput.spam = some none ∧
    (spamNullChecked.spam = none ∧
     (bodyFields spamNullChecked "u1" "t1").approved = true ∧
     (bodyFields spamNullChecked "u1" "t1").spam = none ∧
     filterNotApproved [Comment.node (bodyFields spamNullChecked "u1" "t1") none] =
       [Comment.node (bodyFields spamNullChecked "u1" "t1")
         (some (filterNotApproved (Option.getD none [])))]) :=
  ⟨by rfl, by rfl,
    created_null_spam_approved spamNullInput spamNullChecked "u1" "t1" none
      (by rfl) (by rfl)⟩

/-- Successful walks extend to appends: when the reply-indices walk reaches a
target node, the append succeeds, the node it returns is the original target
with the body at the end of its replies, and walking the updated root reaches
exactly that updated node. -/
theorem appendAt_of_walkPath (path : List Nat) (c target body : Comment)
    (h : walkPath c path = .ok target) :
    ∃ c2, appendAt c path body =
        .ok (c2, Comment.node target.fields
          (some (target.replies.getD [] ++ [body]))) ∧
      walkPath c2 path =
        .ok (Comment.node target.fields (some (target.replies.getD [] ++ [body]))) := by
  induction path generalizing c with
  | nil =>
    simp only [walkPath] at h
    obtain rfl := Except.ok.inj h
    cases c with
    | node f r =>
      refine ⟨Comment.node f (some (r.getD [] ++ [body])), ?_, ?_⟩
      · simp [appendAt, Comment.fields, Comment.replies]
      · simp [walkPath, Comment.fields, Comment.replies]
  | cons i rest ih =>
    cases c with
    | node f r =>
      cases r with
      | none => simp [walkPath, Comment.replies] at h
      | some rs =>
        simp only [walkPath, Comment.replies] at h
        cases hg : rs[i]? with
        | none => rw [hg] at h; simp at h
        | some child =>
          rw [hg] at h
          obtain ⟨c2, ha, hw⟩ := ih child h
          have hlt : i < rs.length := (List.getElem?_eq_some.mp hg).1
          refine ⟨Comment.node f (some (rs.set i c2)), ?_, ?_⟩
          · simp [appendAt, hg, ha]
          · simp [walkPath, Comment.replies, List.getElem?_set_eq_of_lt c2 hlt, hw]

/-- C2 (counterexample): replying to the root of the stored sample thread,
which already has one reply, returns a repliedToComment that does contain the
newly created comment among its replies — the code pushes the body into the
aliased target before returning it, so the returned node is not the target's
content prior to the append. -/
theorem createComment_repliedTo_contains_new :
    createComment storeOneReply replyRootInput "u0001" "t1" =
      .ok ({ docs := [("1", Comment.node (exFields "c0" "p1" true)
                (some [exReply, replyRootBody]))], nextId := 2 },
           { newComment := some replyRootBody,
             repliedToComment := some (Comment.node (exFields "c0" "p1" true)
               (some [exReply, replyRootBody])) }) ∧
    replyRootBody ∈ [exReply, replyRootBody] :=
  ⟨by rfl, List.Mem.tail _ (List.Mem.head _)⟩

/-- C2 (amended): a reply creation whose recipient path resolves appends the
new node at the end of the target's replies in the persisted document, and the
returned repliedToComment is the target node after the append: the
pre-existing replies (an absent field counting as empty) with the new comment
at the end. -/
theorem createComment_reply_append (st : Store) (input : RawComment)
    (u t : String) (chk : CheckedComment) (p : RecipientPath) (src target : Comment)
    (hval : validateComment input = .ok chk)
    (hpath : chk.recipient_path = some p)
    (hget : st.getDoc p.rootId = some src)
    (hwalk : walkPath src p.indices = .ok target) :
    ∃ root2,
      createComment st input u t =
        .ok (st.updateDoc p.rootId root2,
             { newComment := some (Comment.node (bodyFields chk u t) none)
               repliedToComment := some (Comment.node target.fields
                 (some (target.replies.getD [] ++
                   [Comment.node (bodyFields chk u t) none]))) }) ∧
      walkPath root2 p.indices =
        .ok (Comment.node target.fields
          (some (target.replies.getD [] ++ [Comment.node (bodyFields chk u t) none]))) := by
  obtain ⟨root2, ha, hw⟩ := appendAt_of_walkPath p.indices src target
      (Comment.node (bodyFields chk u t) none) hwalk
  refine ⟨root2, ?_, hw⟩
  simp only [createComment, hval, hpath, hget, ha]

/-- Concrete check of the amended C2: replying to the first reply of the
sample thread appends at its initially absent replies, and the updated root
walks to the updated target. -/
theorem createComment_reply_append_witness :
    validateComment replyIdx0Input = .ok replyIdx0Checked ∧
    replyIdx0Checked.recipient_path = some { rootId := "1", indices := [0] } ∧
    storeOneReply.getDoc "1" = some exRoot ∧
    walkPath exRoot [0] = .ok exReply ∧
    (∃ root2,
      createComment storeOneReply replyIdx0Input "u2" "t2" =
        .ok (storeOneReply.updateDoc "1" root2,
             { newComment := some (Comment.node (bodyFields replyIdx0Checked "u2" "t2") none)
               repliedToComment := some (Comment.node exReply.fields
                 (some (exReply.replies.getD [] ++
                   [Comment.node (bodyFields replyIdx0Checked "u2" "t2") none]))) }) ∧
      walkPath root2 [0] =
        .ok (Comment.node exReply.fields
          (some (exReply.replies.getD [] ++
            [Comment.node (bodyFields replyIdx0Checked "u2" "t2") none])))) :=
  ⟨by rfl, by rfl, by rfl, by rfl,
    createComment_reply_append storeOneReply replyIdx0Input "u2" "t2"
      replyIdx0Checked { rootId := "1", indices := [0] } exRoot exReply
      (by rfl) (by rfl) (by rfl) (by rfl)⟩

/-- Walks compose over path concatenation. -/
theorem walkPath_append (a b : List Nat) (c : Comment) :
    walkPath c (a ++ b) =
      match walkPath c a with
      | .ok mid => walkPath mid b
      | .error e => .error e := by
  induction a generalizing c with
  | nil => simp [walkPath]
  | cons i rest ih =>
    cases c with
    | node f r =>
      cases r with
      | none => simp [walkPath, Comment.replies]
      | some rs =>
        simp only [List.cons_append, walkPath, Comment.replies]
        cases rs[i]? with
        | none => rfl
        | some child => exact ih child

/-- A reply index at or beyond the replies length at its depth makes the walk
throw. -/
theorem walkPath_oob (tnode : Comment) (i : Nat) (rest : List Nat)
    (h : (tnode.replies.getD []).length ≤ i) :
    walkPath tnode (i :: rest) = .error .typeError := by
  cases tnode with
  | node f r =>
    cases r with
    | none => simp [walkPath, Comment.replies]
    | some rs =>
      simp only [Comment.replies, Option.getD_some] at h
      simp [walkPath, Comment.replies, List.getElem?_eq_none h]

/-- A walk failure makes the corresponding append fail the same way. -/
theorem appendAt_error (path : List Nat) (c body : Comment) (e : JsError)
    (h : walkPath c path = .error e) : appendAt c path body = .error e := by
  induction path generalizing c with
  | nil => simp [walkPath] at h
  | cons i rest ih =>
    cases c with
    | node f r =>
      cases r with
      | none =>
        simp only [walkPath, Comment.replies] at h
        simp only [appendAt]
        obtain rfl := Except.error.inj h
        rfl
      | some rs =>
        simp only [walkPath, Comment.replies] at h
        cases hg : rs[i]? with
        | none =>
          rw [hg] at h
          simp only [appendAt, hg]
          obtain rfl := Except.error.inj h
          rfl
        | some child =>
          rw [hg] at h
          simp only [appendAt, hg]
          rw [ih child h]

/-- C6: a reply creation whose recipient path contains an index out of range
for the replies length at its depth fails — the walk dereferences undefined
and the thrown TypeError (the failure the specification taxonomy files as
StructuralError) propagates out of createComment — and no write happens: the
call returns an error and produces no updated store. -/
theorem createComment_path_out_of_range (st : Store) (input : RawComment)
    (u t : String) (chk : CheckedComment) (p : RecipientPath) (src pre : Comment)
    (before after : List Nat) (i : Nat)
    (hval : validateComment input = .ok chk)
    (hpath : chk.recipient_path = some p)
    (hget : st.getDoc p.rootId = some src)
    (hsplit : p.indices = before ++ i :: after)
    (hpre : walkPath src before = .ok pre)
    (hoob : (pre.replies.getD []).length ≤ i) :
    createComment st input u t = .error .typeError := by
  have hw : walkPath src p.indices = .error .typeError := by
    rw [hsplit, walkPath_append]
    simp only [hpre]
    exact walkPath_oob pre i after hoob
  have ha := appendAt_error p.indices src
      (Comment.node (bodyFields chk u t) none) .typeError hw
  simp only [createComment, hval, hpath, hget, ha]

/-- Concrete check of C6 on the specification's own example: path index 1 on a
root with exactly one reply fails and writes nothing. -/
theorem createComment_path_out_of_range_witness :
    validateComment replyIdx1Input = .ok replyIdx1Checked ∧
    replyIdx1Checked.recipient_path = some { rootId := "1", indices := [1] } ∧
    storeOneReply.getDoc "1" = some exRoot ∧
    walkPath exRoot [] = .ok exRoot ∧
    (exRoot.replies.getD []).length ≤ 1 ∧
    createComment storeOneReply replyIdx1Input "u3" "t3" = .error .typeError :=
  ⟨by rfl, by rfl, by rfl, by rfl, by decide,
    createComment_path_out_of_range storeOneReply replyIdx1Input "u3" "t3"
      replyIdx1Checked { rootId := "1", indices := [1] } exRoot exRoot [] [] 1
      (by rfl) (by rfl) (by rfl) (by rfl) (by rfl) (by decide)⟩

/-- Posts returned by the spec-modelled external lookup carry ids among the
requested ids. -/
theorem getItemsByIds_id_mem (posts : List Post) (ids : List String) (p : Post)
    (h : p ∈ getItemsByIds posts ids) : p.id ∈ ids := by
  simp only [getItemsByIds, List.mem_filterMap] at h
  obtain ⟨i, hi, hfind⟩ := h
  have hpi := List.find?_some hfind
  simp only [decide_eq_true_eq] at hpi
  rwa [hpi]

/-- The lookup returns at most as many posts as requested ids. -/
theorem getItemsByIds_length (posts : List Post) (ids : List String) :
    (getItemsByIds posts ids).length ≤ ids.length :=
  List.length_filterMap_le _ _

/-- The enrichment loop succeeds when every post id has a bucket, returning
one entry per post whose count is the doc_count of a bucket keyed by the
post's id. -/
theorem joinCounts_ok (buckets : List Bucket) (ps : List Post)
    (h : ∀ p ∈ ps, ∃ b ∈ buckets, b.key = p.id) :
    ∃ l, joinCounts buckets ps = .ok l ∧ l.length = ps.length ∧
      ∀ pn ∈ l, ∃ b ∈ buckets, b.key = pn.1.id ∧ pn.2 = b.doc_count := by
  induction ps with
  | nil => exact ⟨[], rfl, rfl, by simp⟩
  | cons p ps ih =>
    obtain ⟨b0, hb0mem, hb0key⟩ := h p (List.mem_cons_self _ _)
    have hfind : (buckets.find? (fun b => b.key = p.id)).isSome :=
      List.find?_isSome.mpr ⟨b0, hb0mem, by simp [hb0key]⟩
    obtain ⟨b, hb⟩ := Option.isSome_iff_exists.mp hfind
    obtain ⟨l, hl, hlen, hprop⟩ := ih (fun q hq => h q (List.mem_cons_of_mem _ hq))
    refine ⟨(p, b.doc_count) :: l, ?_, by simp [hlen], ?_⟩
    · simp [joinCounts, hb, hl]
    · intro pn hpn
      rcases List.mem_cons.mp hpn with rfl | hmem
      · refine ⟨b, List.mem_of_find?_eq_some hb, ?_, rfl⟩
        have hbk := List.find?_some hb
        simpa using hbk
      · exact hprop pn hmem

/-- C8: getStats returns a mostCommentedPosts sequence of length at most 5
(the term aggregation is requested with size 5, so the store reports at most
five buckets, taken as a hypothesis on the response) in which each entry
carries a comments_count equal to the doc_count of the aggregation bucket
keyed by that entry's post id; and when the response reports no aggregations,
both mostCommentedPosts and commentsByDate are returned as empty sequences. -/
theorem getStats_correct (countResp : Nat) (resp : StatsResp) (posts : List Post) :
    (∀ aggs, resp.aggregations = some aggs → aggs.post_ids_buckets.length ≤ 5 →
      ∃ r, getStats countResp resp posts = .ok r ∧
        r.mostCommentedPosts.length ≤ 5 ∧
        ∀ pn ∈ r.mostCommentedPosts,
          ∃ b ∈ aggs.post_ids_buckets, b.key = pn.1.id ∧ pn.2 = b.doc_count) ∧
    (resp.aggregations = none →
      ∃ r, getStats countResp resp posts = .ok r ∧
        r.mostCommentedPosts = [] ∧ r.commentsByDate = [] ∧
        r.recentComments = resp.hits.map hitToComment ∧
        r.commentsCount = countResp) := by
  constructor
  · intro aggs haggs hlen
    have hids : ∀ p ∈ getItemsByIds posts (aggs.post_ids_buckets.map (fun b => b.key)),
        ∃ b ∈ aggs.post_ids_buckets, b.key = p.id := by
      intro p hp
      have hmem := getItemsByIds_id_mem _ _ _ hp
      obtain ⟨b, hbmem, hbkey⟩ := List.mem_map.mp hmem
      exact ⟨b, hbmem, hbkey⟩
    obtain ⟨l, hl, hlen2, hprop⟩ := joinCounts_ok _ _ hids
    refine ⟨{ commentsByDate := aggs.histogram_buckets
              mostCommentedPosts := l
              recentComments := resp.hits.map hitToComment
              commentsCount := countResp }, ?_, ?_, hprop⟩
    · simp only [getStats, haggs, hl]
    · calc l.length
          = (getItemsByIds posts (aggs.post_ids_buckets.map (fun b => b.key))).length :=
            hlen2
        _ ≤ (aggs.post_ids_buckets.map (fun b => b.key)).length :=
            getItemsByIds_length _ _
        _ = aggs.post_ids_buckets.length := List.length_map _ _
        _ ≤ 5 := hlen
  · intro hnone
    exact ⟨{ commentsByDate := []
             mostCommentedPosts := []
             recentComments := resp.hits.map hitToComment
             commentsCount := countResp },
           by simp only [getStats, hnone], rfl, rfl, rfl, rfl⟩

/-- Concrete check of C8: on a response with two buckets the enriched entries
match their buckets, and on a response without aggregations both derived
fields are empty. -/
theorem getStats_correct_witness :
    exStatsResp.aggregations = some exAggs ∧
    exAggs.post_ids_buckets.length ≤ 5 ∧
    (∃ r, getStats 4 exStatsResp exPosts = .ok r ∧
      r.mostCommentedPosts.length ≤ 5 ∧
      ∀ pn ∈ r.mostCommentedPosts,
        ∃ b ∈ exAggs.post_ids_buckets, b.key = pn.1.id ∧ pn.2 = b.doc_count) ∧
    (∃ r, getStats 0 exStatsRespEmpty exPosts = .ok r ∧
      r.mostCommentedPosts = [] ∧ r.commentsByDate = [] ∧
      r.recentComments = exStatsRespEmpty.hits.map hitToComment ∧
      r.commentsCount = 0) :=
  ⟨rfl, by decide,
    (getStats_correct 4 exStatsResp exPosts).1 exAggs rfl (by decide),
    (getStats_correct 0 exStatsRespEmpty exPosts).2 rfl⟩

end Comments
